import Mathlib

/-!
Shallow embedding of `src/gdal_warper.py` (fmidev/weather-satellites-gdal-warper).

The script listens to Posttroll messages and shells out to `gdalwarp` (and
optionally `gdaladdo`) to reproject images.  External processes are modelled
by an environment `Env` mapping an argument vector to its outcome; wall-clock
elapsed time for a completed process is part of that outcome (the script only
ever formats it into a log string).  Python dictionaries carrying message
metadata are modelled as association lists with first-match lookup and
in-place update.  The event loop `_warper_loop` is modelled as a step
function on an explicit loop state, with completion callbacks and the SIGTERM
handler applied at iteration boundaries; ghost counters (`submitted`,
`drained`, `inFlight`) record the quantities the specification's invariants
talk about and are not read by the step function's control flow.
-/

namespace GdalWarper

/-- Split a character list at every character satisfying `p`, keeping empty
fragments (the helper underlying both `str.split()` and path splitting). -/
def splitChars (p : Char → Bool) : List Char → List (List Char)
  | [] => [[]]
  | x :: xs =>
    match splitChars p xs, p x with
    | r, true => [] :: r
    | [], false => [[x]]
    | g :: gs, false => (x :: g) :: gs

/-- Python `str.split()` with no argument: split on whitespace, dropping
empty fragments. -/
def pySplit (s : String) : List String :=
  ((splitChars Char.isWhitespace s.data).map String.mk).filter (fun t => t ≠ "")

/-- POSIX `os.path.basename`: everything after the last slash. -/
def basename (p : String) : String :=
  String.mk ((splitChars (fun c => c = '/') p.data).getLastD [])

/-- POSIX `os.path.join` for two components, as used at
`fname_out = os.path.join(target_dir, fname)`. -/
def joinPath (a b : String) : String :=
  if b.data.head? = some '/' then b
  else if a = "" ∨ a.data.getLast? = some '/' then a ++ b
  else a ++ "/" ++ b

/-- A value of the per-projection option mapping: the script only
distinguishes `list` values from (string) values it calls `.split()` on. -/
inductive OptVal where
  | vlist (items : List String)
  | vstr (s : String)
deriving DecidableEq, Repr

/-- `_get_warp_command(config, fname_in, fname_out)`: starts from
`['gdalwarp']`, appends `['-opt', itm]` per element of a list value,
appends `['-opt'] + value.split()` for a string value, then appends
`[fname_in, fname_out]`.  The dict iteration is a fold over the
insertion-ordered key/value pairs. -/
def get_warp_command (config : List (String × OptVal)) (fname_in fname_out : String) :
    List String :=
  (config.foldl (fun cmd p =>
    match p.2 with
    | .vlist items => cmd ++ items.foldl (fun opts itm => opts ++ ["-" ++ p.1, itm]) []
    | .vstr s => cmd ++ (["-" ++ p.1] ++ pySplit s)) ["gdalwarp"])
  ++ [fname_in, fname_out]

/-- Tokens contributed by one option, as the specification describes them:
a list value contributes one `-opt value` pair per element in list order, a
string value contributes the dash-prefixed option followed by the
whitespace-separated tokens of the string. -/
def optionTokens (p : String × OptVal) : List String :=
  match p.2 with
  | .vlist items => (items.map (fun itm => ["-" ++ p.1, itm])).flatten
  | .vstr s => ["-" ++ p.1] ++ pySplit s

/-- Outcome of starting an external process with a given argument vector:
either the executable is missing (`FileNotFoundError`), or the process
completes with a return code, captured stderr, and a formatted elapsed-time
figure (the script only interpolates the latter into a message). -/
inductive ProcOutcome where
  | notFound
  | completed (returncode : Nat) (stderr : String) (elapsed : String)
deriving DecidableEq, Repr

/-- The external world: what happens when a given argument vector is run. -/
def Env : Type := List String → ProcOutcome

/-- `_run_command(cmd)`: catches `FileNotFoundError` and reports the missing
program; non-zero exit reports the decoded stderr; success reports the
elapsed seconds. -/
def run_command (env : Env) (cmd : List String) : Bool × String :=
  match env cmd with
  | .notFound => (false, "Command \x27" ++ cmd.headD "" ++ "\x27 not found")
  | .completed rc stderr elapsed =>
    if rc ≠ 0 then (false, stderr)
    else (true, "File reprojected in " ++ elapsed ++ " seconds.")

/-- `warp(fname_in, target_dir, config)`: builds the output path from the
target directory and the input basename, runs the warp command, and returns
the output path on success, `None` on failure.  The second component is the
list of external commands invoked. -/
def warp (env : Env) (fname_in target_dir : String) (config : List (String × OptVal)) :
    Option String × List (List String) :=
  let fname := basename fname_in
  let fname_out := joinPath target_dir fname
  let cmd := get_warp_command config fname_in fname_out
  let r := run_command env cmd
  (if r.1 then some fname_out else none, [cmd])

/-- `add_overviews(fname, overviews)`: a falsy `overviews` (absent key or
empty list) trivially succeeds without running anything; otherwise runs
`gdaladdo fname level...` and returns its success bit.  The second component
is the list of external commands invoked. -/
def add_overviews (env : Env) (fname : String) :
    Option (List Int) → Bool × List (List String)
  | none => (true, [])
  | some [] => (true, [])
  | some (x :: xs) =>
    let cmd := ["gdaladdo", fname] ++ ((x :: xs).map (fun v => toString v))
    ((run_command env cmd).1, [cmd])

/-- Message metadata dictionary: insertion-ordered association list. -/
def Dict : Type := List (String × String)

instance : DecidableEq Dict := by unfold Dict; infer_instance

/-- Python dict lookup `d[k]` (first binding wins; `none` means `KeyError`). -/
def dictGet (d : Dict) (k : String) : Option String :=
  match d with
  | [] => none
  | (k', v') :: rest => if k' = k then some v' else dictGet rest k

/-- Python dict assignment `d[k] = v`: replaces an existing binding in place,
otherwise appends. -/
def dictSet (d : Dict) (k : String) (v : String) : Dict :=
  match d with
  | [] => [(k, v)]
  | (k', v') :: rest => if k' = k then (k, v) :: rest else (k', v') :: dictSet rest k v

/-- A Posttroll message as the script constructs it:
`Message(pub_topic, "file", meta)`. -/
structure Msg where
  topic : String
  mtype : String
  data : Dict
deriving DecidableEq

/-- The relevant part of the configuration mapping: `target_dir`, the nested
option mapping selected by `target_projection`, the optional `overviews`
list, and the optional `restart_timeout` (minutes). -/
structure Config where
  target_dir : String
  projection_options : List (String × OptVal)
  overviews : Option (List Int)
  restart_timeout : Option ℚ

/-- `_process_message(config, msg_data, pub_topic)`: copies the metadata,
warps, optionally adds overviews, and on full success returns a message whose
metadata has `uri` replaced by the new path and a `uid` added.  Outer `none`
models the `KeyError` when the inbound metadata has no `uri`; the list
component collects the external commands invoked. -/
def process_message (env : Env) (config : Config) (msg_data : Dict) (pub_topic : String) :
    Option (Option Msg × List (List String)) :=
  let overviews := config.overviews
  let meta := msg_data
  match dictGet meta "uri" with
  | none => none
  | some uri =>
    let w := warp env uri config.target_dir config.projection_options
    match w.1 with
    | none => some (none, w.2)
    | some new_uri =>
      let a := add_overviews env new_uri overviews
      if a.1 then
        let meta := dictSet meta "uri" new_uri
        let meta := dictSet meta "uid" (basename new_uri)
        some (some ⟨pub_topic, "file", meta⟩, w.2 ++ a.2)
      else some (none, w.2 ++ a.2)

/-- `_process_message_worker`: runs `_process_message` on the (already
copied) metadata and pairs the metadata with the outcome. -/
def process_message_worker (env : Env) (config : Config) (msg_data : Dict)
    (pub_topic : String) : Option ((Dict × Option Msg) × List (List String)) :=
  (process_message env config msg_data pub_topic).map (fun r => ((msg_data, r.1), r.2))

/-- `_publish_message(pub, msg_data, pub_msg)`: sends the message only when
`pub_msg is not None`; the result is what gets sent (or nothing). -/
def publish_message (pub_msg : Option Msg) : Option Msg :=
  match pub_msg with
  | none => none
  | some m => some m

/-- One completed worker result as delivered by the `apply_async` callback:
the pair `(msg_data, pub_msg)` returned by `_process_message_worker`. -/
def WorkerResult : Type := Dict × Option Msg

instance : DecidableEq WorkerResult := by unfold WorkerResult; infer_instance

/-- The mutable state of `_warper_loop` between iterations of
`for msg in sub.recv(1)`.  `results` is the callback-fed completion buffer,
`queued_images` the outstanding-work counter, `keep_looping` the flag the
SIGTERM handler clears, `latest_message_time` the timestamp of the last real
message (in seconds).  `inFlight`, `submitted` and `drained` are ghost
counters of items handed to the pool but not yet called back, of all
submissions, and of all drained results; the loop body never reads them. -/
structure LoopState where
  results : List WorkerResult
  queued_images : ℤ
  keep_looping : Bool
  latest_message_time : ℚ
  inFlight : ℕ
  submitted : ℕ
  drained : ℕ
deriving DecidableEq

/-- Python truthiness of the optional `restart_timeout` value, as tested by
`if restart_timeout:` — absent and `0` are both falsy. -/
def pyTruthy : Option ℚ → Bool
  | none => false
  | some t => t ≠ 0

/-- What `_warper_loop` does on returning: `sigterm` is `return signal.SIGTERM`
(graceful-shutdown path), `restartNone` is the bare `return` taken on the
idle timeout (the function returns `None`). -/
inductive LoopReturn where
  | sigterm
  | restartNone
deriving DecidableEq, Repr

/-- Outcome of one loop iteration: the loop returns, the iteration raises
(`UnboundLocalError` on `time_since_last_msg`), or the loop continues with a
new state. -/
inductive StepResult where
  | exit (r : LoopReturn)
  | error
  | next (s : LoopState)
deriving DecidableEq

/-- The `while results:` drain loop: pops results from the front, publishes
each, and decrements `queued_images` once per popped result.  Returns the
sequence of popped results in pop order and the final counter value. -/
def drainWhile : List WorkerResult → ℤ → List WorkerResult × ℤ
  | [], queued => ([], queued)
  | r :: rest, queued =>
    let d := drainWhile rest (queued - 1)
    (r :: d.1, d.2)

/-- The part of the iteration after the idle/termination checks:
`if msg is None: continue`, otherwise record the message time, submit the
payload to the pool, and increment `queued_images`. -/
def submitPhase (now : ℚ) (msg : Option Dict) (s : LoopState) : StepResult :=
  match msg with
  | none => .next s
  | some _ =>
    .next { s with latest_message_time := now,
                   queued_images := s.queued_images + 1,
                   inFlight := s.inFlight + 1,
                   submitted := s.submitted + 1 }

/-- One iteration of the `for msg in sub.recv(1)` body, given the current
wall-clock time `now` (seconds).  First the drain loop runs; then
`time_since_last_msg` is assigned (in minutes) only when `restart_timeout`
is truthy; then, when no work is outstanding, the loop returns `SIGTERM` if
shutdown was requested, and otherwise compares `time_since_last_msg` with
the timeout — a comparison that raises `UnboundLocalError` when
`restart_timeout` is falsy, because the variable was never assigned. -/
def loopIter (restart_timeout : Option ℚ) (now : ℚ) (msg : Option Dict)
    (s : LoopState) : StepResult :=
  let d := drainWhile s.results s.queued_images
  let s1 : LoopState :=
    { s with results := [], queued_images := d.2, drained := s.drained + d.1.length }
  let time_since_last_msg : Option ℚ :=
    if pyTruthy restart_timeout then some ((now - s1.latest_message_time) / 60) else none
  if s1.queued_images = 0 then
    if s1.keep_looping = false then .exit .sigterm
    else
      match time_since_last_msg, restart_timeout with
      | some ts, some t => if ts > t then .exit .restartNone else submitPhase now msg s1
      | _, _ => .error
  else submitPhase now msg s1

/-- Delivery of the SIGTERM signal before an iteration: the handler sets
`keep_looping = False` and returns. -/
def applySignal (s : LoopState) (sig : Bool) : LoopState :=
  if sig then { s with keep_looping := false } else s

/-- Delivery of completion callbacks before an iteration: each callback
appends its worker's result to `results`. -/
def applyArrivals (s : LoopState) (arrivals : List WorkerResult) : LoopState :=
  { s with results := s.results ++ arrivals, inFlight := s.inFlight - arrivals.length }

/-- One observable step of the event loop: the signal and any number of
completion callbacks may fire between iterations, then the iteration body
runs on the message (or `None` tick) that `sub.recv(1)` yielded. -/
def warperStep (restart_timeout : Option ℚ) (sig : Bool) (arrivals : List WorkerResult)
    (now : ℚ) (msg : Option Dict) (s : LoopState) : StepResult :=
  loopIter restart_timeout now msg (applyArrivals (applySignal s sig) arrivals)

/-- The state `_warper_loop` sets up before entering the receive loop, with
`t0` the loop start time (`latest_message_time = dt.datetime.utcnow()`). -/
def initState (t0 : ℚ) : LoopState :=
  { results := [], queued_images := 0, keep_looping := true,
    latest_message_time := t0, inFlight := 0, submitted := 0, drained := 0 }

/-- States the event loop can reach: the initial state, and any state the
step function continues into, where the completion callbacks that fire can
only come from workers still in flight. -/
inductive Reaches (restart_timeout : Option ℚ) : LoopState → Prop where
  | init (t0 : ℚ) : Reaches restart_timeout (initState t0)
  | step {s s' : LoopState} (sig : Bool) (arrivals : List WorkerResult)
      (now : ℚ) (msg : Option Dict)
      (hr : Reaches restart_timeout s)
      (harr : arrivals.length ≤ s.inFlight)
      (hstep : warperStep restart_timeout sig arrivals now msg s = .next s') :
      Reaches restart_timeout s'

/-- The dispatch in `main`: the subscription loop is re-entered unless
`_warper_loop` returned `signal.SIGTERM`, in which case `main` breaks out
and the process shuts down. -/
def main_breaks : LoopReturn → Bool
  | .sigterm => true
  | .restartNone => false

/-- The state after the drain loop of one iteration has run: the buffer is
empty, the counter dropped once per drained result, and the ghost drain
counter advanced by the same amount. -/
def drainedState (s : LoopState) : LoopState :=
  { s with results := [],
           queued_images := s.queued_images - s.results.length,
           drained := s.drained + s.results.length }

/-- An external world in which no executable can be found. -/
def envAllMissing : Env := fun _ => .notFound

/-- An external world in which every command completes successfully at once. -/
def envAllOk : Env := fun _ => .completed 0 "" "0.0"

/-- A small concrete configuration used to exercise the theorems. -/
def cfg0 : Config :=
  { target_dir := "/out",
    projection_options := [("t_srs", .vstr "EPSG:4326")],
    overviews := some [],
    restart_timeout := none }

/- ## Helper lemmas -/

/-- Folding the per-list-value option expansion equals the mapped-and-
flattened form. -/
theorem foldl_optPairs (name : String) (items : List String) :
    ∀ acc : List String,
      items.foldl (fun opts itm => opts ++ ["-" ++ name, itm]) acc
        = acc ++ (items.map (fun itm => ["-" ++ name, itm])).flatten := by
  induction items with
  | nil => intro acc; simp
  | cons x xs ih => intro acc; simp [ih, List.append_assoc]

/-- The option-folding loop of `_get_warp_command` produces exactly the
concatenation of each option's token block. -/
theorem get_warp_command_eq (config : List (String × OptVal)) (f_in f_out : String) :
    get_warp_command config f_in f_out
      = ["gdalwarp"] ++ (config.map optionTokens).flatten ++ [f_in, f_out] := by
  have h : ∀ (cfg : List (String × OptVal)) (acc : List String),
      cfg.foldl (fun cmd p =>
        match p.2 with
        | .vlist items => cmd ++ items.foldl (fun opts itm => opts ++ ["-" ++ p.1, itm]) []
        | .vstr s => cmd ++ (["-" ++ p.1] ++ pySplit s)) acc
        = acc ++ (cfg.map optionTokens).flatten := by
    intro cfg
    induction cfg with
    | nil => intro acc; simp
    | cons p rest ih =>
      intro acc
      rcases p with ⟨name, v⟩
      cases v with
      | vlist items =>
        rw [List.foldl_cons, ih]
        have hb := foldl_optPairs name items ([] : List String)
        simp [optionTokens, List.append_assoc, hb]
      | vstr s =>
        rw [List.foldl_cons, ih]
        simp [optionTokens, List.append_assoc]
  unfold get_warp_command
  rw [h]

/-- The drain loop forwards the whole buffer in order and decrements the
counter once per forwarded result. -/
theorem drainWhile_eq (rs : List WorkerResult) (q : ℤ) :
    drainWhile rs q = (rs, q - rs.length) := by
  induction rs generalizing q with
  | nil => simp [drainWhile]
  | cons r rest ih =>
    simp only [drainWhile, ih, List.length_cons]
    refine Prod.ext rfl ?_
    push_cast
    ring

/-- Looking up the key just set returns the new value. -/
theorem dictGet_dictSet_self (d : Dict) (k v : String) :
    dictGet (dictSet d k v) k = some v := by
  induction d with
  | nil => simp [dictSet, dictGet]
  | cons p rest ih =>
    rcases p with ⟨k', v'⟩
    by_cases h : k' = k <;> simp [dictSet, dictGet, h, ih]

/-- Setting one key leaves every other key's lookup unchanged. -/
theorem dictGet_dictSet_ne (d : Dict) (k v k' : String) (h : k' ≠ k) :
    dictGet (dictSet d k v) k' = dictGet d k' := by
  induction d with
  | nil =>
    simp only [dictSet, dictGet, ite_eq_right_iff]
    exact fun hh => absurd hh.symm h
  | cons p rest ih =>
    rcases p with ⟨k'', v''⟩
    by_cases hk : k'' = k <;> by_cases hk' : k'' = k' <;>
      simp_all [dictSet, dictGet]

@[simp] theorem applySignal_results (s : LoopState) (sig : Bool) :
    (applySignal s sig).results = s.results := by cases sig <;> rfl

@[simp] theorem applySignal_queued (s : LoopState) (sig : Bool) :
    (applySignal s sig).queued_images = s.queued_images := by cases sig <;> rfl

@[simp] theorem applySignal_latest (s : LoopState) (sig : Bool) :
    (applySignal s sig).latest_message_time = s.latest_message_time := by cases sig <;> rfl

@[simp] theorem applySignal_inFlight (s : LoopState) (sig : Bool) :
    (applySignal s sig).inFlight = s.inFlight := by cases sig <;> rfl

@[simp] theorem applySignal_submitted (s : LoopState) (sig : Bool) :
    (applySignal s sig).submitted = s.submitted := by cases sig <;> rfl

@[simp] theorem applySignal_drained (s : LoopState) (sig : Bool) :
    (applySignal s sig).drained = s.drained := by cases sig <;> rfl

@[simp] theorem applyArrivals_results (s : LoopState) (arr : List WorkerResult) :
    (applyArrivals s arr).results = s.results ++ arr := rfl

@[simp] theorem applyArrivals_queued (s : LoopState) (arr : List WorkerResult) :
    (applyArrivals s arr).queued_images = s.queued_images := rfl

@[simp] theorem applyArrivals_keep (s : LoopState) (arr : List WorkerResult) :
    (applyArrivals s arr).keep_looping = s.keep_looping := rfl

@[simp] theorem applyArrivals_latest (s : LoopState) (arr : List WorkerResult) :
    (applyArrivals s arr).latest_message_time = s.latest_message_time := rfl

@[simp] theorem applyArrivals_inFlight (s : LoopState) (arr : List WorkerResult) :
    (applyArrivals s arr).inFlight = s.inFlight - arr.length := rfl

@[simp] theorem applyArrivals_submitted (s : LoopState) (arr : List WorkerResult) :
    (applyArrivals s arr).submitted = s.submitted := rfl

@[simp] theorem applyArrivals_drained (s : LoopState) (arr : List WorkerResult) :
    (applyArrivals s arr).drained = s.drained := rfl

@[simp] theorem submitPhase_none (now : ℚ) (s : LoopState) :
    submitPhase now none s = .next s := rfl

@[simp] theorem submitPhase_some (now : ℚ) (d : Dict) (s : LoopState) :
    submitPhase now (some d) s
      = .next { s with latest_message_time := now,
                       queued_images := s.queued_images + 1,
                       inFlight := s.inFlight + 1,
                       submitted := s.submitted + 1 } := rfl

/-- Full case analysis of a loop iteration: the drain always runs first;
with nothing outstanding the loop returns `SIGTERM` when shutdown was
requested, raises when `restart_timeout` is falsy, returns on an exceeded
idle timeout, and otherwise proceeds to the message handling. -/
theorem loopIter_cases (rt : Option ℚ) (now : ℚ) (msg : Option Dict) (s : LoopState) :
    loopIter rt now msg s
      = if s.queued_images - (s.results.length : ℤ) = 0 then
          (if s.keep_looping = false then .exit .sigterm
           else
             match rt with
             | none => .error
             | some t =>
               if t ≠ 0 then
                 (if (now - s.latest_message_time) / 60 > t then .exit .restartNone
                  else submitPhase now msg (drainedState s))
               else .error)
        else submitPhase now msg (drainedState s) := by
  cases rt with
  | none => simp [loopIter, drainWhile_eq, pyTruthy, drainedState]
  | some t =>
    by_cases ht : t = 0
    · subst ht
      simp [loopIter, drainWhile_eq, pyTruthy, drainedState]
    · simp [loopIter, drainWhile_eq, pyTruthy, ht, drainedState]

/-- `loopIter_cases` specialized to a truthy configured timeout. -/
theorem loopIter_cases_some (t : ℚ) (ht : t ≠ 0) (now : ℚ) (msg : Option Dict)
    (s : LoopState) :
    loopIter (some t) now msg s
      = if s.queued_images - (s.results.length : ℤ) = 0 then
          (if s.keep_looping = false then .exit .sigterm
           else if (now - s.latest_message_time) / 60 > t then .exit .restartNone
           else submitPhase now msg (drainedState s))
        else submitPhase now msg (drainedState s) := by
  rw [loopIter_cases]
  simp [ht]

/-- The post-check part of an iteration never makes the loop return. -/
theorem submitPhase_ne_exit (now : ℚ) (msg : Option Dict) (s : LoopState)
    (r : LoopReturn) : submitPhase now msg s ≠ .exit r := by
  cases msg <;> simp [submitPhase]

/-- The post-check part of an iteration never raises. -/
theorem submitPhase_ne_error (now : ℚ) (msg : Option Dict) (s : LoopState) :
    submitPhase now msg s ≠ .error := by
  cases msg <;> simp [submitPhase]

/- ## Claim theorems -/

/-- C2: the reprojection command that `warp` runs starts with the tool name,
continues with one `-option value` pair per element (in order) for each
list-valued option and with the dash-prefixed option followed by the
whitespace-split tokens for each string-valued option, and ends with the
input path followed by the output path, the latter being the target
directory joined with the input path's basename. -/
theorem warp_command_spec (env : Env) (config : List (String × OptVal))
    (fname_in target_dir : String) :
    (warp env fname_in target_dir config).2
      = [["gdalwarp"] ++ (config.map optionTokens).flatten
          ++ [fname_in, joinPath target_dir (basename fname_in)]] := by
  simp [warp, get_warp_command_eq]

/-- C7: `_run_cmd` always returns a `(success, message)` pair — failure with
a message naming the missing program when the executable cannot be found,
failure with the captured stderr on a non-zero exit, and success with an
elapsed-seconds report otherwise. -/
theorem run_command_spec (env : Env) (cmd : List String) :
    (env cmd = .notFound →
        run_command env cmd = (false, "Command \x27" ++ cmd.headD "" ++ "\x27 not found"))
  ∧ (∀ rc stderr elapsed, env cmd = .completed rc stderr elapsed → rc ≠ 0 →
        run_command env cmd = (false, stderr))
  ∧ (∀ rc stderr elapsed, env cmd = .completed rc stderr elapsed → rc = 0 →
        run_command env cmd
          = (true, "File reprojected in " ++ elapsed ++ " seconds.")) := by
  refine ⟨fun h => ?_, fun rc st el h hrc => ?_, fun rc st el h hrc => ?_⟩
  · simp [run_command, h]
  · simp [run_command, h, hrc]
  · simp [run_command, h, hrc]

/-- Witness for C7 at a concrete world with a missing executable. -/
theorem run_command_spec_witness :
    run_command envAllMissing ["gdalwarp"]
      = (false, "Command \x27gdalwarp\x27 not found") :=
  (run_command_spec envAllMissing ["gdalwarp"]).1 rfl

/-- C3: a message is carried by the result iff both the reprojection and the
overview step succeed; when reprojection fails the invocation log holds only
the warp command (the overview tool is never run) and no message is carried;
an empty overview list is a trivial success that runs nothing. -/
theorem process_message_publish_iff (env : Env) (config : Config) (msg_data : Dict)
    (topic u : String) (hu : dictGet msg_data "uri" = some u) :
    ((run_command env (get_warp_command config.projection_options u
          (joinPath config.target_dir (basename u)))).1 = false →
        process_message env config msg_data topic
          = some (none, [get_warp_command config.projection_options u
              (joinPath config.target_dir (basename u))]))
  ∧ ((run_command env (get_warp_command config.projection_options u
          (joinPath config.target_dir (basename u)))).1 = true →
      (add_overviews env (joinPath config.target_dir (basename u))
          config.overviews).1 = false →
        process_message env config msg_data topic
          = some (none,
              get_warp_command config.projection_options u
                  (joinPath config.target_dir (basename u))
                :: (add_overviews env (joinPath config.target_dir (basename u))
                      config.overviews).2))
  ∧ ((run_command env (get_warp_command config.projection_options u
          (joinPath config.target_dir (basename u)))).1 = true →
      (add_overviews env (joinPath config.target_dir (basename u))
          config.overviews).1 = true →
        process_message env config msg_data topic
          = some (some ⟨topic, "file",
                dictSet (dictSet msg_data "uri" (joinPath config.target_dir (basename u)))
                  "uid" (basename (joinPath config.target_dir (basename u)))⟩,
              get_warp_command config.projection_options u
                  (joinPath config.target_dir (basename u))
                :: (add_overviews env (joinPath config.target_dir (basename u))
                      config.overviews).2))
  ∧ (∀ f, add_overviews env f (some []) = (true, [])) := by
  refine ⟨fun hw => ?_, fun hw ha => ?_, fun hw ha => ?_, fun f => rfl⟩
  · simp [process_message, warp, hu, hw]
  · simp [process_message, warp, hu, hw, ha]
  · simp [process_message, warp, hu, hw, ha]

/-- Witness for C3: with every command succeeding and an empty overview
list, processing yields a publishable message. -/
theorem process_message_publish_iff_witness :
    process_message envAllOk cfg0 [("uri", "/in/a.tif")] "/topic"
      = some (some ⟨"/topic", "file",
            dictSet (dictSet [("uri", "/in/a.tif")] "uri"
                (joinPath cfg0.target_dir (basename "/in/a.tif")))
              "uid" (basename (joinPath cfg0.target_dir (basename "/in/a.tif")))⟩,
          get_warp_command cfg0.projection_options "/in/a.tif"
              (joinPath cfg0.target_dir (basename "/in/a.tif"))
            :: (add_overviews envAllOk (joinPath cfg0.target_dir (basename "/in/a.tif"))
                  cfg0.overviews).2) :=
  (process_message_publish_iff envAllOk cfg0 [("uri", "/in/a.tif")] "/topic" "/in/a.tif"
      (by decide)).2.2.1 (by decide) (by decide)

/-- C8: the published payload is the inbound payload with `uri` replaced by
the output location and a `uid` added, all other fields unchanged; the
worker hands the inbound payload back unmodified; nothing is sent when the
result carries no message. -/
theorem process_message_payload (env : Env) (config : Config) (msg_data : Dict)
    (topic u : String) (m : Msg) (log : List (List String))
    (hu : dictGet msg_data "uri" = some u)
    (hp : process_message env config msg_data topic = some (some m, log)) :
    dictGet m.data "uri" = some (joinPath config.target_dir (basename u))
  ∧ dictGet m.data "uid" = some (basename (joinPath config.target_dir (basename u)))
  ∧ (∀ k, k ≠ "uri" → k ≠ "uid" → dictGet m.data k = dictGet msg_data k)
  ∧ process_message_worker env config msg_data topic = some ((msg_data, some m), log)
  ∧ (∀ pm : Option Msg, publish_message pm = none ↔ pm = none) := by
  have hworker : process_message_worker env config msg_data topic
      = some ((msg_data, some m), log) := by
    simp [process_message_worker, hp]
  have hm : m.data
      = dictSet (dictSet msg_data "uri" (joinPath config.target_dir (basename u)))
          "uid" (basename (joinPath config.target_dir (basename u))) := by
    by_cases hw : (run_command env (get_warp_command config.projection_options u
        (joinPath config.target_dir (basename u)))).1 = true
    · by_cases ha : (add_overviews env (joinPath config.target_dir (basename u))
          config.overviews).1 = true
      · simp [process_message, warp, hu, hw, ha] at hp
        rw [← hp.1]
      · rw [Bool.not_eq_true] at ha
        simp [process_message, warp, hu, hw, ha] at hp
    · rw [Bool.not_eq_true] at hw
      simp [process_message, warp, hu, hw] at hp
  refine ⟨?_, ?_, ?_, hworker, ?_⟩
  · rw [hm, dictGet_dictSet_ne _ _ _ _ (by decide), dictGet_dictSet_self]
  · rw [hm, dictGet_dictSet_self]
  · intro k hk1 hk2
    rw [hm, dictGet_dictSet_ne _ _ _ _ hk2, dictGet_dictSet_ne _ _ _ _ hk1]
  · intro pm
    cases pm <;> simp [publish_message]

/-- Witness for C8 on a concrete fully-successful run. -/
theorem process_message_payload_witness :
    dictGet (Msg.data ⟨"/topic", "file",
        dictSet (dictSet [("uri", "/in/a.tif")] "uri"
            (joinPath cfg0.target_dir (basename "/in/a.tif")))
          "uid" (basename (joinPath cfg0.target_dir (basename "/in/a.tif")))⟩) "uid"
      = some (basename (joinPath cfg0.target_dir (basename "/in/a.tif"))) :=
  (process_message_payload envAllOk cfg0 [("uri", "/in/a.tif")] "/topic" "/in/a.tif"
      ⟨"/topic", "file",
        dictSet (dictSet [("uri", "/in/a.tif")] "uri"
            (joinPath cfg0.target_dir (basename "/in/a.tif")))
          "uid" (basename (joinPath cfg0.target_dir (basename "/in/a.tif")))⟩
      [get_warp_command cfg0.projection_options "/in/a.tif"
          (joinPath cfg0.target_dir (basename "/in/a.tif"))]
      (by decide) (by decide)).2.1

/-- C10: a configuration without an `overviews` key behaves exactly like one
with an empty overview list — the overview step trivially succeeds without
running anything, and a successful reprojection alone yields a message. -/
theorem process_message_no_overviews_key (env : Env) (config : Config)
    (msg_data : Dict) (topic : String) :
    process_message env { config with overviews := none } msg_data topic
      = process_message env { config with overviews := some [] } msg_data topic
  ∧ (∀ f, add_overviews env f none = (true, []))
  ∧ (∀ u, dictGet msg_data "uri" = some u →
      (run_command env (get_warp_command config.projection_options u
          (joinPath config.target_dir (basename u)))).1 = true →
      process_message env { config with overviews := none } msg_data topic
        = some (some ⟨topic, "file",
              dictSet (dictSet msg_data "uri" (joinPath config.target_dir (basename u)))
                "uid" (basename (joinPath config.target_dir (basename u)))⟩,
            [get_warp_command config.projection_options u
                (joinPath config.target_dir (basename u))])) := by
  refine ⟨?_, fun f => rfl, fun u hu hw => ?_⟩
  · cases hget : dictGet msg_data "uri" with
    | none => simp [process_message, hget]
    | some u =>
      by_cases hw : (run_command env (get_warp_command config.projection_options u
          (joinPath config.target_dir (basename u)))).1 = true
      · simp [process_message, hget, warp, hw, add_overviews]
      · rw [Bool.not_eq_true] at hw
        simp [process_message, hget, warp, hw]
  · simp [process_message, hu, warp, hw, add_overviews]

/-- Accounting invariant of the loop state: the counter always equals the
in-flight work plus the buffered results, and every submission is either
drained, buffered, or in flight. -/
theorem reaches_inv {rt : Option ℚ} {s : LoopState} (h : Reaches rt s) :
    s.queued_images = (s.inFlight : ℤ) + s.results.length
      ∧ (s.submitted : ℤ) = (s.drained : ℤ) + s.results.length + s.inFlight := by
  induction h with
  | init t0 => simp [initState]
  | @step s s' sig arrivals now msg hr harr hstep ih =>
    rw [warperStep, loopIter_cases] at hstep
    obtain ⟨ih1, ih2⟩ := ih
    split at hstep
    · split at hstep
      · cases hstep
      · split at hstep
        · cases hstep
        · split at hstep
          · split at hstep
            · cases hstep
            · cases msg with
              | none =>
                rw [submitPhase_none] at hstep
                cases hstep
                simp [drainedState]
                constructor <;> omega
              | some d =>
                rw [submitPhase_some] at hstep
                cases hstep
                simp [drainedState]
                constructor <;> omega
          · cases hstep
    · cases msg with
      | none =>
        rw [submitPhase_none] at hstep
        cases hstep
        simp [drainedState]
        constructor <;> omega
      | some d =>
        rw [submitPhase_some] at hstep
        cases hstep
        simp [drainedState]
        constructor <;> omega

/-- C6: in every reachable loop state the outstanding-work counter is
non-negative and equals the number of submitted work items minus the number
of drained results (each submission adds one, each drained result removes
one). -/
theorem outstanding_count_inv (rt : Option ℚ) (s : LoopState) (h : Reaches rt s) :
    0 ≤ s.queued_images
  ∧ s.queued_images = (s.submitted : ℤ) - (s.drained : ℤ) := by
  obtain ⟨h1, h2⟩ := reaches_inv h
  constructor <;> omega

/-- Witness for C6 at the initial state of the loop. -/
theorem outstanding_count_inv_witness :
    0 ≤ (initState 0).queued_images
  ∧ (initState 0).queued_images
      = ((initState 0).submitted : ℤ) - ((initState 0).drained : ℤ) :=
  outstanding_count_inv none (initState 0) (Reaches.init 0)

/-- Witness for C10: a successful reprojection with no `overviews` key still
produces a message. -/
theorem process_message_no_overviews_key_witness :
    process_message envAllOk { cfg0 with overviews := none } [("uri", "/in/a.tif")] "/topic"
      = some (some ⟨"/topic", "file",
            dictSet (dictSet [("uri", "/in/a.tif")] "uri"
                (joinPath cfg0.target_dir (basename "/in/a.tif")))
              "uid" (basename (joinPath cfg0.target_dir (basename "/in/a.tif")))⟩,
          [get_warp_command cfg0.projection_options "/in/a.tif"
              (joinPath cfg0.target_dir (basename "/in/a.tif"))]) :=
  (process_message_no_overviews_key envAllOk cfg0 [("uri", "/in/a.tif")]
      "/topic").2.2 "/in/a.tif" (by decide) (by decide)

/-- C4: once shutdown has been requested, an iteration with work still
outstanding continues the loop (its drain still forwarding every buffered
result), an iteration with nothing outstanding returns the `SIGTERM`
sentinel, and `main` breaks on that sentinel while re-subscribing on the
idle-restart return. -/
theorem drain_then_terminate (rt : Option ℚ) (sig : Bool)
    (arrivals : List WorkerResult) (now : ℚ) (msg : Option Dict) (s : LoopState)
    (hk : (applySignal s sig).keep_looping = false) :
    (s.queued_images - ((s.results.length : ℤ) + arrivals.length) ≠ 0 →
       ∃ s', warperStep rt sig arrivals now msg s = .next s'
          ∧ s'.results = []
          ∧ (s'.drained : ℤ) = s.drained + s.results.length + arrivals.length)
  ∧ (s.queued_images - ((s.results.length : ℤ) + arrivals.length) = 0 →
       warperStep rt sig arrivals now msg s = .exit .sigterm)
  ∧ main_breaks .sigterm = true
  ∧ main_breaks .restartNone = false := by
  refine ⟨fun hq => ?_, fun hq => ?_, rfl, rfl⟩
  · rw [warperStep, loopIter_cases]
    have hc : ¬ ((applyArrivals (applySignal s sig) arrivals).queued_images
        - ((applyArrivals (applySignal s sig) arrivals).results.length : ℤ) = 0) := by
      simp only [applyArrivals_queued, applySignal_queued, applyArrivals_results,
        applySignal_results, List.length_append]
      push_cast
      omega
    rw [if_neg hc]
    cases msg with
    | none =>
      refine ⟨_, submitPhase_none _ _, rfl, ?_⟩
      simp only [drainedState, applyArrivals_drained, applySignal_drained,
        applyArrivals_results, applySignal_results, List.length_append]
      push_cast
      ring
    | some d =>
      refine ⟨_, submitPhase_some _ _ _, rfl, ?_⟩
      simp only [drainedState, applyArrivals_drained, applySignal_drained,
        applyArrivals_results, applySignal_results, List.length_append]
      push_cast
      ring
  · rw [warperStep, loopIter_cases]
    have hc : (applyArrivals (applySignal s sig) arrivals).queued_images
        - ((applyArrivals (applySignal s sig) arrivals).results.length : ℤ) = 0 := by
      simp only [applyArrivals_queued, applySignal_queued, applyArrivals_results,
        applySignal_results, List.length_append]
      push_cast
      omega
    rw [if_pos hc, if_pos (by simpa using hk)]

/-- Witness for C4: with the signal delivered and nothing outstanding, the
loop returns the `SIGTERM` sentinel. -/
theorem drain_then_terminate_witness :
    warperStep none true [] 0 none (initState 0) = .exit .sigterm :=
  (drain_then_terminate none true [] 0 none (initState 0) (by decide)).2.1
    (by decide)

/-- C5: with a truthy `restart_timeout` configured, an iteration makes the
loop return the restart sentinel exactly when the drain leaves no work
outstanding, shutdown has not been requested, and the wall-clock minutes
since the last real message exceed the timeout; in particular an iteration
with outstanding work never takes the restart exit. -/
theorem restart_iff_idle_timeout (t : ℚ) (ht : t ≠ 0) (sig : Bool)
    (arrivals : List WorkerResult) (now : ℚ) (msg : Option Dict) (s : LoopState) :
    (warperStep (some t) sig arrivals now msg s = .exit .restartNone ↔
      (s.queued_images - ((s.results.length : ℤ) + arrivals.length) = 0
        ∧ (applySignal s sig).keep_looping = true
        ∧ (now - s.latest_message_time) / 60 > t))
  ∧ (s.queued_images - ((s.results.length : ℤ) + arrivals.length) ≠ 0 →
      warperStep (some t) sig arrivals now msg s ≠ .exit .restartNone) := by
  have e1 : (applyArrivals (applySignal s sig) arrivals).queued_images
      - ((applyArrivals (applySignal s sig) arrivals).results.length : ℤ)
      = s.queued_images - ((s.results.length : ℤ) + arrivals.length) := by
    simp only [applyArrivals_queued, applySignal_queued, applyArrivals_results,
      applySignal_results, List.length_append]
    push_cast
    ring
  have hiff : warperStep (some t) sig arrivals now msg s = .exit .restartNone ↔
      (s.queued_images - ((s.results.length : ℤ) + arrivals.length) = 0
        ∧ (applySignal s sig).keep_looping = true
        ∧ (now - s.latest_message_time) / 60 > t) := by
    rw [warperStep, loopIter_cases_some t ht]
    constructor
    · intro h
      split at h
      · rename_i hq0
        split at h
        · simp at h
        · rename_i hkeep
          split at h
          · rename_i htime
            exact ⟨by rw [← e1]; exact hq0, by simpa using hkeep, by simpa using htime⟩
          · exact absurd h (submitPhase_ne_exit _ _ _ _)
      · exact absurd h (submitPhase_ne_exit _ _ _ _)
    · rintro ⟨h1, h2, h3⟩
      rw [if_pos (by rw [e1]; exact h1),
          if_neg (by simp [h2]),
          if_pos (by simpa using h3)]
  exact ⟨hiff, fun hq h => hq ((hiff.mp h).1)⟩

/-- 360 seconds of idleness is six minutes, which exceeds a five-minute
timeout. -/
theorem six_minutes_gt_five :
    ((360 : ℚ) - (initState 0).latest_message_time) / 60 > 5 := by
  norm_num [initState]

/-- Witness for C5: six idle minutes against a five-minute timeout make the
loop return the restart sentinel. -/
theorem restart_iff_idle_timeout_witness :
    warperStep (some 5) false [] 360 none (initState 0) = .exit .restartNone :=
  ((restart_iff_idle_timeout 5 (by norm_num) false [] 360 none (initState 0)).1).mpr
    ⟨by decide, by decide, six_minutes_gt_five⟩

/-- C9: the drain forwards the whole buffer, so after any continuing
iteration the results buffer is empty and an immediately following drain
with no new completions forwards the empty sequence. -/
theorem drain_idempotent (rt : Option ℚ) (sig : Bool) (arrivals : List WorkerResult)
    (now : ℚ) (msg : Option Dict) (s s' : LoopState) (sig2 : Bool)
    (h : warperStep rt sig arrivals now msg s = .next s') :
    s'.results = []
  ∧ drainWhile (applyArrivals (applySignal s' sig2) []).results
      (applyArrivals (applySignal s' sig2) []).queued_images
      = ([], (applyArrivals (applySignal s' sig2) []).queued_images) := by
  have hres : s'.results = [] := by
    rw [warperStep, loopIter_cases] at h
    split at h
    · split at h
      · cases h
      · split at h
        · cases h
        · split at h
          · split at h
            · cases h
            · cases msg with
              | none => rw [submitPhase_none] at h; cases h; rfl
              | some d => rw [submitPhase_some] at h; cases h; rfl
          · cases h
    · cases msg with
      | none => rw [submitPhase_none] at h; cases h; rfl
      | some d => rw [submitPhase_some] at h; cases h; rfl
  refine ⟨hres, ?_⟩
  simp [hres, drainWhile]

/-- Witness for C9 on a concrete continuing iteration that drains one
buffered result. -/
theorem drain_idempotent_witness :
    (⟨[], 1, true, 0, 1, 3, 2⟩ : LoopState).results = []
  ∧ drainWhile
      (applyArrivals (applySignal (⟨[], 1, true, 0, 1, 3, 2⟩ : LoopState) false) []).results
      (applyArrivals (applySignal (⟨[], 1, true, 0, 1, 3, 2⟩ : LoopState) false) []).queued_images
      = ([],
         (applyArrivals (applySignal (⟨[], 1, true, 0, 1, 3, 2⟩ : LoopState) false) []).queued_images) :=
  drain_idempotent (some 5) false [] 0 none
    ⟨[(([] : Dict), none)], 2, true, 0, 1, 3, 1⟩ ⟨[], 1, true, 0, 1, 3, 2⟩ false
    (by decide)

/-- C1 (bug evaluation): with no `restart_timeout` configured, an idle
iteration — nothing outstanding, no shutdown requested — raises
`UnboundLocalError` at the `time_since_last_msg > restart_timeout`
comparison instead of continuing, because `time_since_last_msg` is only
ever assigned under `if restart_timeout:`.  Evaluated here at the concrete
failing input: the first iteration after startup. -/
theorem no_restart_timeout_raises :
    warperStep none false [] 0 none (initState 0) = .error := by decide

end GdalWarper
